import Mathlib

/-!
Verification development for the CDC (Commander Deck Check) price-resolution
core: configuration loading (config.py), the LigaMagic local-currency adapter
(ligamagic.py, ligamagic_selenium.py), the Scryfall reference-price adapter and
exchange-rate sub-adapter and the price resolver (mtg_data.py), and the batch
price-fetching worker (cdc.py).

Modelling conventions: prices, exchange rates and clock instants are rationals;
Python dicts used as caches are association lists with last-write-wins insert;
the network is an explicit oracle argument describing what the remote side does
on this call; every fetch reports whether it issued an HTTP request.
-/

/-- Python dict lookup on an association list keyed by card name. -/
def lookupCache {α : Type} (c : List (String × α)) (k : String) : Option α :=
  (c.find? (fun e => e.1 == k)).map (fun e => e.2)

/-- Python dict assignment: replaces any previous binding of the key. -/
def insertCache {α : Type} (c : List (String × α)) (k : String) (v : α) :
    List (String × α) :=
  (k, v) :: c.filter (fun e => e.1 != k)

/-- The on-disk state a cache or config loader can encounter: no file, a file
json.load raises on, or a file that parses to usable entries. -/
inductive FileContent (α : Type) where
  | missing
  | unparseable
  | parsed (entries : α)
deriving DecidableEq

/-! ## config.py -/

/-- The two persisted settings (config.py DEFAULT_CONFIG keys). -/
structure Config where
  price_cache_hours : Int
  exchange_rate_cache_minutes : Int
deriving DecidableEq

/-- config.py DEFAULT_CONFIG: 12 hours price cache, 10 minutes exchange cache. -/
def DEFAULT_CONFIG : Config :=
  { price_cache_hours := 12, exchange_rate_cache_minutes := 10 }

/-- A persisted config record as json.load returns it: each key independently
present or absent (extra keys are irrelevant to the merge). -/
structure ConfigRecord where
  price_cache_hours : Option Int
  exchange_rate_cache_minutes : Option Int
deriving DecidableEq

/-- ConfigManager._load_config: a missing file or a json.load error falls back
to DEFAULT_CONFIG; a parsed record is merged over the defaults key by key, with
no bounds validation of the loaded values. Loading itself never fails (the
source catches every exception). -/
def load_config : FileContent ConfigRecord → Config
  | FileContent.missing => DEFAULT_CONFIG
  | FileContent.unparseable => DEFAULT_CONFIG
  | FileContent.parsed r =>
    { price_cache_hours := r.price_cache_hours.getD DEFAULT_CONFIG.price_cache_hours,
      exchange_rate_cache_minutes :=
        r.exchange_rate_cache_minutes.getD DEFAULT_CONFIG.exchange_rate_cache_minutes }

/-- ConfigManager.get_price_cache_ttl_seconds: hours times 3600, read from the
current config on every call. -/
def get_price_cache_ttl_seconds (cfg : Config) : ℚ :=
  (cfg.price_cache_hours : ℚ) * 3600

/-- ConfigManager.get_exchange_rate_ttl_seconds: minutes times 60. -/
def get_exchange_rate_ttl_seconds (cfg : Config) : ℚ :=
  (cfg.exchange_rate_cache_minutes : ℚ) * 60

/-- Documented bounds for price_cache_hours (1 to 168), enforced by
ConfigManager.update_settings but not by _load_config. -/
def price_hours_in_bounds (h : Int) : Bool :=
  decide (1 ≤ h) && decide (h ≤ 168)

/-- Documented bounds for exchange_rate_cache_minutes (1 to 1440). -/
def exchange_minutes_in_bounds (m : Int) : Bool :=
  decide (1 ≤ m) && decide (m ≤ 1440)

/-! ## Price-string parsing (ligamagic.py _parse_brl_price) -/

/-- Accumulate a digit list into a natural number. -/
def digitsToNat (ds : List Char) : ℕ :=
  ds.foldl (fun a c => a * 10 + (c.toNat - 48)) 0

/-- Fueled worker for Python str.replace over character lists: scan left to
right, replacing each non-overlapping occurrence of the pattern. The fuel is
the input length, enough because a nonempty match consumes at least one
character per step. -/
def pyReplaceAux (pat rep : List Char) : ℕ → List Char → List Char
  | 0, l => l
  | _ + 1, [] => []
  | fuel + 1, c :: cs =>
    if !pat.isEmpty && pat.isPrefixOf (c :: cs) then
      rep ++ pyReplaceAux pat rep fuel ((c :: cs).drop pat.length)
    else
      c :: pyReplaceAux pat rep fuel cs

/-- Python str.replace for a nonempty pattern (the only use here; the patterns
at the call sites are the currency sign, the dot and the comma). -/
def pyReplace (s pat rep : List Char) : List Char :=
  pyReplaceAux pat rep s.length s

/-- Python str.strip with no argument: drop whitespace from both ends. -/
def pyStrip (cs : List Char) : List Char :=
  ((cs.dropWhile Char.isWhitespace).reverse.dropWhile Char.isWhitespace).reverse

/-- Python float() restricted to plain decimal literals: an optional sign, an
integer part and an optional fractional part after one dot, with at least one
digit overall. Exponent, underscore, inf and nan forms of the Python grammar
never arise from currency strings and are outside the modelled fragment. -/
def pyFloat (cs : List Char) : Option ℚ :=
  let signRest : ℚ × List Char :=
    match cs with
    | '-' :: r => (-1, r)
    | '+' :: r => (1, r)
    | r => (1, r)
  let ip := signRest.2.takeWhile Char.isDigit
  let rest2 := signRest.2.dropWhile Char.isDigit
  match rest2 with
  | [] =>
    if ip.isEmpty then none else some (signRest.1 * digitsToNat ip)
  | '.' :: frac =>
    if frac.all Char.isDigit then
      if ip.isEmpty && frac.isEmpty then none
      else some (signRest.1 *
        ((digitsToNat ip : ℚ) + (digitsToNat frac : ℚ) / (10 ^ frac.length)))
    else none
  | _ => none

/-- LigaMagicPriceManager._parse_brl_price: drop the currency sign, drop the
thousands dots, turn the decimal comma into a dot, strip whitespace, then
float(); None on conversion failure. -/
def parse_brl_price (price_str : String) : Option ℚ :=
  pyFloat (pyStrip (pyReplace (pyReplace (pyReplace price_str.data
    ['R', '$'] []) ['.'] []) [','] ['.']))

example : parse_brl_price "R$ 1.234,56" = some (123456 / 100) := by
  simp +decide [parse_brl_price, pyReplace, pyReplaceAux, pyStrip, pyFloat, digitsToNat]
  norm_num
example : parse_brl_price "R$ 1,50" = some (3 / 2) := by
  simp +decide [parse_brl_price, pyReplace, pyReplaceAux, pyStrip, pyFloat, digitsToNat]
  norm_num
example : parse_brl_price "indisponivel" = none := by
  simp +decide [parse_brl_price, pyReplace, pyReplaceAux, pyStrip, pyFloat, digitsToNat]

/-! ## ligamagic_selenium.py -/

/-- What can happen inside LigaMagicSeleniumScraper.fetch_price: the driver may
be absent, the page wait may time out, the driver may fail, or the page loads
with some list of price-element texts. Every branch is caught inside the
scraper, which then returns None rather than raising. -/
inductive SeleniumRun where
  | driver_unavailable
  | wait_timeout
  | webdriver_error
  | unexpected_error
  | page_loaded (price_texts : List String)
deriving DecidableEq

/-- LigaMagicSeleniumScraper.fetch_price: on a loaded page, parse each price
text with the same clean-and-float chain as the direct scraper, keep the
strictly positive ones, and return their minimum; on an empty or unparseable
set, and on every driver or timeout failure, return None. -/
def selenium_fetch_price (run : SeleniumRun) : Option ℚ :=
  match run with
  | SeleniumRun.page_loaded texts =>
    match (texts.filterMap parse_brl_price).filter (fun q => 0 < q) with
    | [] => none
    | q :: qs => some (qs.foldl min q)
  | _ => none

/-! ## ligamagic.py -/

/-- The metadata field the LigaMagic adapter stores alongside a cache entry:
the reason string of a negative entry, or the success detail of a positive
one. -/
inductive LigaMeta where
  | invalid_result
  | selenium_source
  | selenium_not_found
  | javascript_no_selenium
  | no_prices_found
  | editions_count (n : ℕ)
deriving DecidableEq

/-- One entry of the LigaMagic price cache: price None is a cached negative
result, price some is a cached success; the timestamp is when it was written. -/
structure LigaEntry where
  price : Option ℚ
  timestamp : ℚ
  meta : LigaMeta
deriving DecidableEq

/-- The mutable state of LigaMagicPriceManager: the in-memory cache dict and
the rate-limiter timestamp. -/
structure LigaState where
  cache : List (String × LigaEntry)
  last_request_time : ℚ
deriving DecidableEq

/-- The page the direct requests.get fetch observes, already parsed by
BeautifulSoup: whether the script-rendered price container is present, whether
the page text carries any of the Magic-content indicator words, and the texts
of the price-avg elements. -/
structure LigaPage where
  uses_javascript : Bool
  has_magic_content : Bool
  price_avg_texts : List String
deriving DecidableEq

/-- What the one requests.get call of fetch_price does: time out, fail with a
request error, raise unexpectedly during processing, or deliver a page. -/
inductive LigaNet where
  | timeout
  | request_error
  | unexpected_error
  | page (p : LigaPage)
deriving DecidableEq

/-- Whether get_selenium_scraper().fetch_price executes (returning whatever the
scraper returns) or raises before producing a result. -/
inductive SeleniumCall where
  | executes (run : SeleniumRun)
  | raised
deriving DecidableEq

/-- LigaMagicPriceManager._validate_card_result: at least one price-avg element
and at least one Magic-content indicator word. -/
def validate_card_result (p : LigaPage) : Bool :=
  !p.price_avg_texts.isEmpty && p.has_magic_content

/-- The result of one fetch_price call: the price returned to the caller, the
manager state afterwards, and whether an HTTP request was issued. -/
structure LigaFetchOut where
  price : Option ℚ
  state : LigaState
  network : Bool
deriving DecidableEq

/-- A terminal branch of the fetch_price network path that writes a cache
entry for the card (price and reason or detail) and returns the same price. -/
def ligaWriteResult (st1 : LigaState) (card_name : String) (now : ℚ)
    (price : Option ℚ) (meta : LigaMeta) : LigaFetchOut :=
  { price := price,
    state := { st1 with cache := insertCache st1.cache card_name ⟨price, now, meta⟩ },
    network := true }

/-- The direct extraction over the price-avg elements (ligamagic.py lines 319
to 352): parse each, keep the strictly positive values, and cache and return
their minimum, or cache a no_prices_found negative when none remain. -/
def ligaDirectParse (st1 : LigaState) (card_name : String) (now : ℚ)
    (texts : List String) : LigaFetchOut :=
  match (texts.filterMap parse_brl_price).filter (fun q => 0 < q) with
  | [] => ligaWriteResult st1 card_name now none LigaMeta.no_prices_found
  | q :: qs =>
    ligaWriteResult st1 card_name now (some (qs.foldl min q))
      (LigaMeta.editions_count (q :: qs).length)

/-- The network-path tail of fetch_price, entered when the cache had no valid
entry (ligamagic.py lines 231 to 361): rate-limit wait, one requests.get, then
javascript detection, validation, the optional Selenium escalation, and the
direct minimum-price extraction, each terminal branch writing its cache entry;
transient request failures write nothing. -/
def ligaFetchNetwork (selenium_available : Bool) (net : LigaNet) (sel : SeleniumCall)
    (st : LigaState) (now : ℚ) (card_name : String) : LigaFetchOut :=
  let st1 : LigaState := { st with last_request_time := now }
  match net with
  | LigaNet.timeout => { price := none, state := st1, network := true }
  | LigaNet.request_error => { price := none, state := st1, network := true }
  | LigaNet.unexpected_error => { price := none, state := st1, network := true }
  | LigaNet.page p =>
    let uses_js := p.uses_javascript
    let is_valid := validate_card_result p
    if !is_valid && !uses_js then
      ligaWriteResult st1 card_name now none LigaMeta.invalid_result
    else if uses_js && selenium_available then
      match sel with
      | SeleniumCall.executes run =>
        match selenium_fetch_price run with
        | some price => ligaWriteResult st1 card_name now (some price) LigaMeta.selenium_source
        | none => ligaWriteResult st1 card_name now none LigaMeta.selenium_not_found
      | SeleniumCall.raised => ligaDirectParse st1 card_name now p.price_avg_texts
    else if uses_js && !selenium_available then
      ligaWriteResult st1 card_name now none LigaMeta.javascript_no_selenium
    else ligaDirectParse st1 card_name now p.price_avg_texts

/-- LigaMagicPriceManager.fetch_price: read the TTL from the configuration
manager on this call, answer from the cache when the entry is younger than the
TTL (no network), otherwise go to the network path. -/
def fetch_price (cfg : Config) (selenium_available : Bool) (net : LigaNet)
    (sel : SeleniumCall) (st : LigaState) (now : ℚ) (card_name : String) : LigaFetchOut :=
  let cache_ttl := get_price_cache_ttl_seconds cfg
  match lookupCache st.cache card_name with
  | some entry =>
    if now - entry.timestamp < cache_ttl then
      { price := entry.price, state := st, network := false }
    else
      ligaFetchNetwork selenium_available net sel st now card_name
  | none => ligaFetchNetwork selenium_available net sel st now card_name

/-! ## mtg_data.py: Scryfall adapter, exchange rate, resolver -/

/-- One entry of the Scryfall price cache: only successful USD prices are ever
written by get_card_price_from_scryfall. -/
structure ScryEntry where
  price : ℚ
  timestamp : ℚ
deriving DecidableEq

/-- The prices object of a Scryfall card response: each of the three USD fields
is absent, or present with some string value (an empty string is falsy in the
source's or-chain, like an absent field). -/
structure ScryPrices where
  usd : Option String
  usd_foil : Option String
  usd_etched : Option String
deriving DecidableEq

/-- What the Scryfall requests.get call does: fail with a request error
(connection error, timeout or a raised status), raise unexpectedly, or deliver
a card response with a prices object. -/
inductive ScryNet where
  | request_error
  | unexpected_error
  | response (prices : ScryPrices)
deriving DecidableEq

/-- Python truthiness filter used by the source's or-chain over the three price
fields: None and the empty string are falsy. -/
def pyTruthyStr (s : Option String) : Option String :=
  match s with
  | none => none
  | some v => if v = "" then none else some v

/-- prices.get of the source: the first truthy of usd, usd_foil, usd_etched. -/
def scryPriceStr (p : ScryPrices) : Option String :=
  match pyTruthyStr p.usd with
  | some v => some v
  | none =>
    match pyTruthyStr p.usd_foil with
    | some v => some v
    | none => pyTruthyStr p.usd_etched

/-- The result of one get_card_price_from_scryfall call. -/
structure ScryFetchOut where
  price : Option ℚ
  cache : List (String × ScryEntry)
  network : Bool
deriving DecidableEq

/-- The network tail of get_card_price_from_scryfall: the request, the
truthy-or-chain over the three USD price fields, and the float conversion;
only a converted price writes a cache entry. A response with no usable price
is returned as None uncached (the source comments that failures are not cached
for now), and a float() failure or request failure is also None uncached. -/
def scryfallNetwork (net : ScryNet) (cache : List (String × ScryEntry)) (now : ℚ)
    (card_name : String) : ScryFetchOut :=
  match net with
  | ScryNet.request_error => { price := none, cache := cache, network := true }
  | ScryNet.unexpected_error => { price := none, cache := cache, network := true }
  | ScryNet.response prices =>
    match scryPriceStr prices with
    | none => { price := none, cache := cache, network := true }
    | some s =>
      match pyFloat s.data with
      | none => { price := none, cache := cache, network := true }
      | some price =>
        let entry : ScryEntry := { price := price, timestamp := now }
        { price := some price,
          cache := insertCache cache card_name entry,
          network := true }

/-- MTGDataManager.get_card_price_from_scryfall: read the TTL fresh from the
configuration manager, answer from the cache when the entry is younger than
the TTL (no network); otherwise go to the network tail. -/
def get_card_price_from_scryfall (cfg : Config) (net : ScryNet)
    (cache : List (String × ScryEntry)) (now : ℚ) (card_name : String) : ScryFetchOut :=
  let cache_ttl := get_price_cache_ttl_seconds cfg
  match lookupCache cache card_name with
  | some entry =>
    if now - entry.timestamp < cache_ttl then
      { price := some entry.price, cache := cache, network := false }
    else
      scryfallNetwork net cache now card_name
  | none => scryfallNetwork net cache now card_name

/-- What the exchange-rate API call does: fail, answer without a BRL rate,
answer with a value float() rejects, or answer with a rate. -/
inductive RateNet where
  | request_error
  | no_brl_rate
  | bad_rate_value
  | rate (r : ℚ)
deriving DecidableEq

/-- The exchange-rate slice of MTGDataManager state: the last fetched rate and
its timestamp (None and 0 at startup). -/
structure RateCache where
  rate : Option ℚ
  timestamp : ℚ
deriving DecidableEq

/-- The result of one get_usd_to_brl_exchange_rate call. -/
structure RateFetchOut where
  rate : Option ℚ
  cache : RateCache
  network : Bool
deriving DecidableEq

/-- The network tail of get_usd_to_brl_exchange_rate: only a successful rate
updates the cached rate and its timestamp; failures leave the previous cached
rate and timestamp in place. -/
def rateNetwork (net : RateNet) (rc : RateCache) (now : ℚ) : RateFetchOut :=
  match net with
  | RateNet.request_error => { rate := none, cache := rc, network := true }
  | RateNet.no_brl_rate => { rate := none, cache := rc, network := true }
  | RateNet.bad_rate_value => { rate := none, cache := rc, network := true }
  | RateNet.rate r =>
    { rate := some r, cache := { rate := some r, timestamp := now }, network := true }

/-- MTGDataManager.get_usd_to_brl_exchange_rate: read the exchange-rate TTL
fresh from the configuration manager; answer from the cached rate when younger
than the TTL; otherwise go to the network tail. -/
def get_usd_to_brl_exchange_rate (cfg : Config) (net : RateNet) (rc : RateCache)
    (now : ℚ) : RateFetchOut :=
  let cache_ttl := get_exchange_rate_ttl_seconds cfg
  match rc.rate with
  | some r =>
    if now - rc.timestamp < cache_ttl then
      { rate := some r, cache := rc, network := false }
    else
      rateNetwork net rc now
  | none => rateNetwork net rc now

/-- The MTGDataManager state the resolver touches. -/
structure MtgState where
  scry_cache : List (String × ScryEntry)
  exchange_rate_cache : RateCache
deriving DecidableEq

/-- The price resolver's output record: get_card_price_brl returns a dict with
price, source and currency keys, or None. -/
structure PriceQuote where
  price : ℚ
  source : String
  currency : String
deriving DecidableEq

/-- MTGDataManager.get_card_price_brl_from_ligamagic: None when the LigaMagic
module is unavailable, otherwise the adapter's fetch_price result (the wrapper
only catches exceptions, which the adapter already never lets escape). -/
def get_card_price_brl_from_ligamagic (ligamagic_available : Bool) (cfg : Config)
    (selenium_available : Bool) (net : LigaNet) (sel : SeleniumCall) (st : LigaState)
    (now : ℚ) (card_name : String) : Option ℚ × LigaState :=
  if ligamagic_available then
    let out := fetch_price cfg selenium_available net sel st now card_name
    (out.price, out.state)
  else
    (none, st)

/-- MTGDataManager.get_card_price_brl: with prefer_local and an available
LigaMagic module, try the LigaMagic adapter first and on a price return it
tagged source ligamagic, currency BRL; otherwise fall through to Scryfall; a
Scryfall miss is an overall None; a Scryfall price without an exchange rate is
returned tagged source scryfall, currency USD; with a rate it is converted and
tagged source scryfall, currency BRL. -/
def get_card_price_brl (cfg : Config) (ligamagic_available selenium_available : Bool)
    (ligaNet : LigaNet) (sel : SeleniumCall) (scryNet : ScryNet) (rateNet : RateNet)
    (ligaSt : LigaState) (mtgSt : MtgState) (now : ℚ) (card_name : String)
    (prefer_local : Bool) : Option PriceQuote × LigaState × MtgState :=
  let viaScryfall : LigaState → Option PriceQuote × LigaState × MtgState := fun ligaSt1 =>
    let sout := get_card_price_from_scryfall cfg scryNet mtgSt.scry_cache now card_name
    let mtgSt1 : MtgState := { mtgSt with scry_cache := sout.cache }
    match sout.price with
    | none => (none, ligaSt1, mtgSt1)
    | some price_usd =>
      let rout := get_usd_to_brl_exchange_rate cfg rateNet mtgSt1.exchange_rate_cache now
      let mtgSt2 : MtgState := { mtgSt1 with exchange_rate_cache := rout.cache }
      match rout.rate with
      | none =>
        (some { price := price_usd, source := "scryfall", currency := "USD" }, ligaSt1, mtgSt2)
      | some rate =>
        (some { price := price_usd * rate, source := "scryfall", currency := "BRL" },
          ligaSt1, mtgSt2)
  if prefer_local && ligamagic_available then
    let lout := get_card_price_brl_from_ligamagic ligamagic_available cfg
      selenium_available ligaNet sel ligaSt now card_name
    match lout.1 with
    | some price_brl =>
      (some { price := price_brl, source := "ligamagic", currency := "BRL" }, lout.2, mtgSt)
    | none => viaScryfall lout.2
  else
    viaScryfall ligaSt

/-! ## Cache loading (ligamagic.py _load_cache, mtg_data.py _load_price_cache) -/

/-- LigaMagicPriceManager._load_cache: a missing backing file leaves the cache
empty; a file json.load raises on is logged and leaves the cache empty; a
parsed file becomes the in-memory cache. Construction never fails: every
branch, including the catch-all handler, produces a cache. -/
def load_cache (f : FileContent (List (String × LigaEntry))) : List (String × LigaEntry) :=
  match f with
  | FileContent.missing => []
  | FileContent.unparseable => []
  | FileContent.parsed entries => entries

/-- MTGDataManager._load_price_cache: identical recovery discipline for the
Scryfall price cache file. -/
def load_price_cache (f : FileContent (List (String × ScryEntry))) :
    List (String × ScryEntry) :=
  match f with
  | FileContent.missing => []
  | FileContent.unparseable => []
  | FileContent.parsed entries => entries

/-! ## cdc.py: the batch price-fetching worker -/

/-- The tagged messages CommanderDeckCheckApp._price_fetching_worker puts on
the queue, in the source's vocabulary: progress carries the one-based index
and card name, card_price carries the quote or its absence with its source,
total_cost carries the running total, done and stopped are the terminals. -/
inductive BatchMsg where
  | progress (index : ℕ) (card_name : String)
  | card_price (card_name : String) (price : Option ℚ) (source : Option String)
  | total_cost (total : ℚ)
  | done
  | stopped
deriving DecidableEq

/-- A resolver as the worker sees it: card name to quote or None. The worker
calls mtg_data_manager.get_card_price_brl with prefer_local True; the claims
about batch behaviour quantify over, or stub, this function. -/
def Resolver : Type := String → Option PriceQuote

/-- The cooperative cancellation flag as the worker observes it. The worker
reads the flag once at the top of each per-card iteration and once after the
loop; the flag is monotone within a run (it is only cleared before a new run
starts). We parametrise a run by the number of reads that happen before the
flag is first seen set: read number k (counting from zero) sees the flag set
exactly when cancel_after ≤ k, so cancel_after greater than the list length
means the flag is never set during the run. -/
def flagSeenSet (cancel_after k : ℕ) : Bool :=
  decide (cancel_after ≤ k)

/-- The loop body of CommanderDeckCheckApp._price_fetching_worker, from the
check of stop_fetching_event at the top of iteration i (zero-based, with the
running total so far) to the terminal events after the loop: on a set flag put
stopped and break (the post-loop check then sees the flag still set and skips
done); otherwise put progress with the one-based index, resolve, put
card_price, add the price (zero when absent) to the running total, put
total_cost, and continue; an exhausted list puts done unless the flag was set
after the last iteration. -/
def workerLoop (resolver : Resolver) (cancel_after : ℕ) :
    ℕ → ℚ → List String → List BatchMsg
  | k, _, [] =>
    if flagSeenSet cancel_after k then [] else [BatchMsg.done]
  | k, total, card_name :: rest =>
    if flagSeenSet cancel_after k then
      [BatchMsg.stopped]
    else
      match resolver card_name with
      | some quote =>
        BatchMsg.progress (k + 1) card_name ::
        BatchMsg.card_price card_name (some quote.price) (some quote.source) ::
        BatchMsg.total_cost (total + quote.price) ::
        workerLoop resolver cancel_after (k + 1) (total + quote.price) rest
      | none =>
        BatchMsg.progress (k + 1) card_name ::
        BatchMsg.card_price card_name none none ::
        BatchMsg.total_cost total ::
        workerLoop resolver cancel_after (k + 1) total rest

/-- CommanderDeckCheckApp._price_fetching_worker over a list of card names:
total_cost starts at zero and the iteration index at one. -/
def price_fetching_worker (resolver : Resolver) (cancel_after : ℕ)
    (cards_to_fetch : List String) : List BatchMsg :=
  workerLoop resolver cancel_after 0 0 cards_to_fetch

/-! ## Helper lemmas -/

theorem lookupCache_insertCache_self {α : Type} (c : List (String × α)) (k : String)
    (v : α) : lookupCache (insertCache c k v) k = some v := by
  simp [lookupCache, insertCache]

theorem foldl_min_le_init (q : ℚ) (l : List ℚ) : l.foldl min q ≤ q := by
  induction l generalizing q with
  | nil => simp
  | cons a t ih =>
    simpa using le_trans (ih (min q a)) (min_le_left q a)

theorem foldl_min_mem (q : ℚ) (l : List ℚ) : l.foldl min q ∈ q :: l := by
  induction l generalizing q with
  | nil => simp
  | cons a t ih =>
    have h := ih (min q a)
    simp only [List.foldl_cons, List.mem_cons] at h ⊢
    rcases h with h | h
    · rcases min_choice q a with hq | ha
      · exact Or.inl (h.trans hq)
      · exact Or.inr (Or.inl (h.trans ha))
    · exact Or.inr (Or.inr h)

theorem foldl_min_le_all (q : ℚ) (l : List ℚ) : ∀ x ∈ q :: l, l.foldl min q ≤ x := by
  induction l generalizing q with
  | nil =>
    intro x hx
    simp only [List.mem_cons, List.not_mem_nil, or_false] at hx
    simp [hx]
  | cons a t ih =>
    intro x hx
    simp only [List.mem_cons] at hx
    have hinit : (a :: t).foldl min q ≤ min q a := by
      simpa using foldl_min_le_init (min q a) t
    rcases hx with rfl | rfl | hx
    · exact le_trans hinit (min_le_left x a)
    · exact le_trans hinit (min_le_right q x)
    · simpa using ih (min q a) x (by simp [hx])

theorem pos_of_mem_pos_filter {l : List ℚ} {x : ℚ}
    (h : x ∈ l.filter (fun q => 0 < q)) : 0 < x := by
  have := List.mem_filter.mp h
  simpa using this.2

/-! ## Adapter lemmas -/

theorem fetch_price_cache_hit (cfg : Config) (selAvail : Bool) (net : LigaNet)
    (sel : SeleniumCall) (st : LigaState) (now : ℚ) (card : String) (entry : LigaEntry)
    (he : lookupCache st.cache card = some entry)
    (hfresh : now - entry.timestamp < get_price_cache_ttl_seconds cfg) :
    fetch_price cfg selAvail net sel st now card
      = { price := entry.price, state := st, network := false } := by
  simp [fetch_price, he, hfresh]

theorem fetch_price_cache_miss (cfg : Config) (selAvail : Bool) (net : LigaNet)
    (sel : SeleniumCall) (st : LigaState) (now : ℚ) (card : String)
    (he : lookupCache st.cache card = none) :
    fetch_price cfg selAvail net sel st now card
      = ligaFetchNetwork selAvail net sel st now card := by
  simp [fetch_price, he]

theorem fetch_price_cache_stale (cfg : Config) (selAvail : Bool) (net : LigaNet)
    (sel : SeleniumCall) (st : LigaState) (now : ℚ) (card : String) (entry : LigaEntry)
    (he : lookupCache st.cache card = some entry)
    (hstale : get_price_cache_ttl_seconds cfg ≤ now - entry.timestamp) :
    fetch_price cfg selAvail net sel st now card
      = ligaFetchNetwork selAvail net sel st now card := by
  simp [fetch_price, he, not_lt.mpr hstale]

theorem ligaWriteResult_price (st1 : LigaState) (card : String) (now : ℚ)
    (price : Option ℚ) (meta : LigaMeta) :
    (ligaWriteResult st1 card now price meta).price = price := rfl

theorem ligaWriteResult_lookup (st1 : LigaState) (card : String) (now : ℚ)
    (price : Option ℚ) (meta : LigaMeta) :
    lookupCache (ligaWriteResult st1 card now price meta).state.cache card
      = some { price := price, timestamp := now, meta := meta } := by
  simp [ligaWriteResult, lookupCache_insertCache_self]

theorem ligaDirectParse_writes (st1 : LigaState) (card : String) (now : ℚ)
    (texts : List String) :
    ∃ m, lookupCache (ligaDirectParse st1 card now texts).state.cache card
      = some { price := (ligaDirectParse st1 card now texts).price,
               timestamp := now, meta := m } := by
  unfold ligaDirectParse
  split
  · exact ⟨_, by rw [ligaWriteResult_price]; exact ligaWriteResult_lookup _ _ _ _ _⟩
  · exact ⟨_, by rw [ligaWriteResult_price]; exact ligaWriteResult_lookup _ _ _ _ _⟩

theorem ligaDirectParse_network (st1 : LigaState) (card : String) (now : ℚ)
    (texts : List String) : (ligaDirectParse st1 card now texts).network = true := by
  unfold ligaDirectParse
  split <;> rfl

/-- Every completed page processing writes a cache entry for the card whose
stored price equals the returned price and whose timestamp is the call time. -/
theorem ligaFetchNetwork_page_writes (selAvail : Bool) (p : LigaPage)
    (sel : SeleniumCall) (st : LigaState) (now : ℚ) (card : String) :
    ∃ m, lookupCache (ligaFetchNetwork selAvail (LigaNet.page p) sel st now card).state.cache card
      = some { price := (ligaFetchNetwork selAvail (LigaNet.page p) sel st now card).price,
               timestamp := now, meta := m } := by
  simp only [ligaFetchNetwork]
  split_ifs
  · exact ⟨_, by rw [ligaWriteResult_price]; exact ligaWriteResult_lookup _ _ _ _ _⟩
  · cases sel with
    | executes run =>
      cases h : selenium_fetch_price run with
      | some q =>
        exact ⟨_, by simp only [h]; rw [ligaWriteResult_price]; exact ligaWriteResult_lookup _ _ _ _ _⟩
      | none =>
        exact ⟨_, by simp only [h]; rw [ligaWriteResult_price]; exact ligaWriteResult_lookup _ _ _ _ _⟩
    | raised => exact ligaDirectParse_writes _ _ _ _
  · exact ⟨_, by rw [ligaWriteResult_price]; exact ligaWriteResult_lookup _ _ _ _ _⟩
  · exact ligaDirectParse_writes _ _ _ _

/-- Every network-path call reports that an HTTP request was issued. -/
theorem ligaFetchNetwork_network (selAvail : Bool) (net : LigaNet) (sel : SeleniumCall)
    (st : LigaState) (now : ℚ) (card : String) :
    (ligaFetchNetwork selAvail net sel st now card).network = true := by
  cases net with
  | timeout => rfl
  | request_error => rfl
  | unexpected_error => rfl
  | page p =>
    simp only [ligaFetchNetwork]
    split_ifs
    · rfl
    · cases sel with
      | executes run => cases h : selenium_fetch_price run <;> simp only [h] <;> rfl
      | raised => exact ligaDirectParse_network _ _ _ _
    · rfl
    · exact ligaDirectParse_network _ _ _ _

/-- Transient failures of the LigaMagic adapter return None, issue a request,
and leave the cache untouched. -/
theorem ligaFetchNetwork_transient (selAvail : Bool) (net : LigaNet) (sel : SeleniumCall)
    (st : LigaState) (now : ℚ) (card : String)
    (h : net = LigaNet.timeout ∨ net = LigaNet.request_error ∨ net = LigaNet.unexpected_error) :
    ligaFetchNetwork selAvail net sel st now card
      = { price := none, state := { st with last_request_time := now }, network := true } := by
  rcases h with rfl | rfl | rfl <;> rfl

theorem scryfall_cache_hit (cfg : Config) (net : ScryNet)
    (cache : List (String × ScryEntry)) (now : ℚ) (card : String) (entry : ScryEntry)
    (he : lookupCache cache card = some entry)
    (hfresh : now - entry.timestamp < get_price_cache_ttl_seconds cfg) :
    get_card_price_from_scryfall cfg net cache now card
      = { price := some entry.price, cache := cache, network := false } := by
  simp [get_card_price_from_scryfall, he, hfresh]

theorem scryfall_cache_miss (cfg : Config) (net : ScryNet)
    (cache : List (String × ScryEntry)) (now : ℚ) (card : String)
    (he : lookupCache cache card = none) :
    get_card_price_from_scryfall cfg net cache now card
      = scryfallNetwork net cache now card := by
  simp [get_card_price_from_scryfall, he]

/-- A Scryfall response whose or-chain yields no truthy price string is a
confirmed negative: returned as None with the cache untouched. -/
theorem scryfallNetwork_no_price (prices : ScryPrices)
    (cache : List (String × ScryEntry)) (now : ℚ) (card : String)
    (h : scryPriceStr prices = none) :
    scryfallNetwork (ScryNet.response prices) cache now card
      = { price := none, cache := cache, network := true } := by
  simp [scryfallNetwork, h]

/-- A Scryfall response whose price string converts writes the positive cache
entry and returns the price. -/
theorem scryfallNetwork_price (prices : ScryPrices)
    (cache : List (String × ScryEntry)) (now : ℚ) (card : String) (s : String) (q : ℚ)
    (hs : scryPriceStr prices = some s) (hq : pyFloat s.data = some q) :
    scryfallNetwork (ScryNet.response prices) cache now card
      = { price := some q,
          cache := insertCache cache card { price := q, timestamp := now },
          network := true } := by
  simp [scryfallNetwork, hs, hq]

/-! ## Batch-run characterization -/

/-- Specification-side description of the per-card event cycle, following the
spec's words: for each name, a progress event with the one-based index, a
quote event with the card's quote or its absence, then a running-total event
with the price (zero when absent) added; no terminal events. -/
def runEvents (resolver : Resolver) : ℕ → ℚ → List String → List BatchMsg
  | _, _, [] => []
  | k, total, card_name :: rest =>
    match resolver card_name with
    | some quote =>
      BatchMsg.progress (k + 1) card_name ::
      BatchMsg.card_price card_name (some quote.price) (some quote.source) ::
      BatchMsg.total_cost (total + quote.price) ::
      runEvents resolver (k + 1) (total + quote.price) rest
    | none =>
      BatchMsg.progress (k + 1) card_name ::
      BatchMsg.card_price card_name none none ::
      BatchMsg.total_cost total ::
      runEvents resolver (k + 1) total rest

/-- The terminal events of a run whose flag is first seen set at read number
cancel_after, over a list of n cards: done when the flag is never set during
the run, stopped when a per-card read sees it, and nothing at all when only
the post-loop read sees it. -/
def batchTerminal (cancel_after n : ℕ) : List BatchMsg :=
  if n < cancel_after then [BatchMsg.done]
  else if cancel_after < n then [BatchMsg.stopped]
  else []

theorem runEvents_no_stopped (resolver : Resolver) (k : ℕ) (total : ℚ)
    (cards : List String) : BatchMsg.stopped ∉ runEvents resolver k total cards := by
  induction cards generalizing k total with
  | nil => simp [runEvents]
  | cons c rest ih =>
    cases h : resolver c with
    | some q => simp [runEvents, h]; exact ih _ _
    | none => simp [runEvents, h]; exact ih _ _

theorem runEvents_no_done (resolver : Resolver) (k : ℕ) (total : ℚ)
    (cards : List String) : BatchMsg.done ∉ runEvents resolver k total cards := by
  induction cards generalizing k total with
  | nil => simp [runEvents]
  | cons c rest ih =>
    cases h : resolver c with
    | some q => simp [runEvents, h]; exact ih _ _
    | none => simp [runEvents, h]; exact ih _ _

theorem batchTerminal_succ (a n : ℕ) :
    batchTerminal (a + 1) (n + 1) = batchTerminal a n := by
  simp [batchTerminal, Nat.add_lt_add_iff_right]

/-- Master characterization of the worker loop: starting at read number k, the
events are exactly the per-card cycles of the first cancel_after minus k cards
followed by the terminal dictated by where the flag is first seen. -/
theorem workerLoop_eq (resolver : Resolver) (cancel_after : ℕ) (cards : List String) :
    ∀ k total, workerLoop resolver cancel_after k total cards
      = runEvents resolver k total (cards.take (cancel_after - k))
        ++ batchTerminal (cancel_after - k) cards.length := by
  induction cards with
  | nil =>
    intro k total
    by_cases h : cancel_after ≤ k
    · have hz : cancel_after - k = 0 := Nat.sub_eq_zero_of_le h
      simp [workerLoop, flagSeenSet, h, hz, runEvents, batchTerminal]
    · have hpos : 0 < cancel_after - k := Nat.sub_pos_of_lt (Nat.lt_of_not_le h)
      simp [workerLoop, flagSeenSet, h, runEvents, batchTerminal, hpos]
  | cons c rest ih =>
    intro k total
    by_cases h : cancel_after ≤ k
    · have hz : cancel_after - k = 0 := Nat.sub_eq_zero_of_le h
      simp [workerLoop, flagSeenSet, h, hz, runEvents, batchTerminal]
    · have hsub : cancel_after - k = (cancel_after - (k + 1)) + 1 := by omega
      have hflag : flagSeenSet cancel_after k = false := by simp [flagSeenSet, h]
      rw [hsub, List.take_succ_cons, show (c :: rest).length = rest.length + 1 from rfl,
        batchTerminal_succ]
      cases hres : resolver c with
      | some q =>
        simp [workerLoop, runEvents, hflag, hres, ih (k + 1) (total + q.price)]
      | none =>
        simp [workerLoop, runEvents, hflag, hres, ih (k + 1) total]

/-! ## Claim theorems -/

/-- The resolver stub of the batch-run test vector: a 1.50 BRL local quote for
Sol Ring, absence for Black Lotus, a 0.05 BRL local quote for Island. -/
def c2Resolver : Resolver := fun card_name =>
  if card_name = "Sol Ring" then
    some { price := 3 / 2, source := "ligamagic", currency := "BRL" }
  else if card_name = "Island" then
    some { price := 1 / 20, source := "ligamagic", currency := "BRL" }
  else none

/-- C2: a batch run over Sol Ring, Black Lotus, Island with the stubbed
resolver and no cancellation emits exactly progress 1, quote 1.50, total 1.50,
progress 2, absent quote, total 1.50, progress 3, quote 0.05, total 1.55,
done; the absent quote adds zero to the running total and still produces a
total event. -/
theorem c2_batch_event_sequence :
    price_fetching_worker c2Resolver 4 ["Sol Ring", "Black Lotus", "Island"]
      = [BatchMsg.progress 1 "Sol Ring",
         BatchMsg.card_price "Sol Ring" (some (3 / 2)) (some "ligamagic"),
         BatchMsg.total_cost (3 / 2),
         BatchMsg.progress 2 "Black Lotus",
         BatchMsg.card_price "Black Lotus" none none,
         BatchMsg.total_cost (3 / 2),
         BatchMsg.progress 3 "Island",
         BatchMsg.card_price "Island" (some (1 / 20)) (some "ligamagic"),
         BatchMsg.total_cost (31 / 20),
         BatchMsg.done] := by
  simp +decide [price_fetching_worker, workerLoop, c2Resolver, flagSeenSet]
  norm_num

/-- C3 (counterexample): when the cancellation flag is first set after the
last per-card check but before the post-loop check (here: a one-card list with
the flag first seen at read number one), the run emits neither stopped nor
done, refuting the claim that every cancellation during a run yields a stopped
terminal event. -/
theorem c3_counterexample :
    BatchMsg.stopped ∉ price_fetching_worker c2Resolver 1 ["Sol Ring"]
  ∧ BatchMsg.done ∉ price_fetching_worker c2Resolver 1 ["Sol Ring"]
  ∧ price_fetching_worker c2Resolver 1 ["Sol Ring"]
      = [BatchMsg.progress 1 "Sol Ring",
         BatchMsg.card_price "Sol Ring" (some (3 / 2)) (some "ligamagic"),
         BatchMsg.total_cost (3 / 2)] := by
  refine ⟨?_, ?_, ?_⟩ <;>
    simp +decide [price_fetching_worker, workerLoop, c2Resolver, flagSeenSet]

/-- C3 (amended): a batch run emits exactly the per-card cycles of the cards
processed before the flag is seen, with the running total accumulating only
those cards, and then: stopped when the flag is seen at a per-card check (so
at most one more completed cycle after the flag is set, and never done); no
terminal event at all when the flag is first seen only at the post-loop check;
done when the flag is never seen during the run. -/
theorem c3_amended_cancellation (resolver : Resolver) (cards : List String)
    (cancel_after : ℕ) :
    price_fetching_worker resolver cancel_after cards
      = runEvents resolver 0 0 (cards.take cancel_after)
        ++ batchTerminal cancel_after cards.length
  ∧ BatchMsg.stopped ∉ runEvents resolver 0 0 (cards.take cancel_after)
  ∧ BatchMsg.done ∉ runEvents resolver 0 0 (cards.take cancel_after)
  ∧ (cancel_after < cards.length →
      batchTerminal cancel_after cards.length = [BatchMsg.stopped])
  ∧ (cancel_after = cards.length →
      batchTerminal cancel_after cards.length = [])
  ∧ (cards.length < cancel_after →
      batchTerminal cancel_after cards.length = [BatchMsg.done]) := by
  refine ⟨?_, runEvents_no_stopped _ _ _ _, runEvents_no_done _ _ _ _, ?_, ?_, ?_⟩
  · simpa using workerLoop_eq resolver cancel_after cards 0 0
  · intro h
    unfold batchTerminal
    rw [if_neg (by omega), if_pos h]
  · intro h
    unfold batchTerminal
    rw [if_neg (by omega), if_neg (by omega)]
  · intro h
    unfold batchTerminal
    rw [if_pos h]

theorem c3_amended_cancellation_witness :
    BatchMsg.done ∉ price_fetching_worker c2Resolver 1 ["Sol Ring", "Black Lotus"]
  ∧ BatchMsg.stopped ∈ price_fetching_worker c2Resolver 1 ["Sol Ring", "Black Lotus"] := by
  have h := c3_amended_cancellation c2Resolver ["Sol Ring", "Black Lotus"] 1
  have hterm := h.2.2.2.1 (by simp)
  rw [h.1, hterm]
  constructor
  · intro hc
    rcases List.mem_append.mp hc with h1 | h2
    · exact h.2.2.1 h1
    · simp at h2
  · exact List.mem_append.mpr (Or.inr (by simp))

/-- C9: loading either price-cache file yields an empty cache on a missing or
unparseable backing file and the parsed entries otherwise; construction
succeeds for every possible file content (the loader is a total function into
caches). -/
theorem c9_cache_load_never_fails :
    (∀ f : FileContent (List (String × LigaEntry)),
      load_cache f = []
      ∨ ∃ entries, f = FileContent.parsed entries ∧ load_cache f = entries)
  ∧ (∀ g : FileContent (List (String × ScryEntry)),
      load_price_cache g = []
      ∨ ∃ entries, g = FileContent.parsed entries ∧ load_price_cache g = entries)
  ∧ load_cache FileContent.missing = []
  ∧ load_cache FileContent.unparseable = []
  ∧ load_price_cache FileContent.missing = []
  ∧ load_price_cache FileContent.unparseable = [] := by
  refine ⟨?_, ?_, rfl, rfl, rfl, rfl⟩
  · intro f
    cases f <;> simp [load_cache]
  · intro g
    cases g <;> simp [load_price_cache]

/-- C7 (counterexample): a parseable persisted record carrying the out-of-range
value zero for the price-cache lifetime survives the load unchanged, so after
load the effective configuration is outside the documented one-to-168-hours
bounds and is not the default, refuting the claimed fallback for invalid
values. -/
theorem c7_counterexample :
    (load_config (FileContent.parsed
      { price_cache_hours := some 0, exchange_rate_cache_minutes := none })).price_cache_hours = 0
  ∧ price_hours_in_bounds (load_config (FileContent.parsed
      { price_cache_hours := some 0, exchange_rate_cache_minutes := none })).price_cache_hours
      = false
  ∧ load_config (FileContent.parsed
      { price_cache_hours := some 0, exchange_rate_cache_minutes := none }) ≠ DEFAULT_CONFIG := by
  refine ⟨rfl, by decide, by decide⟩

/-- C7 (amended): loading never fails and a missing or unparseable file, or a
missing key, falls back to the defaults (12 hours and 10 minutes, both within
their documented bounds); but a present value is kept as loaded, with no
bounds validation, so only the default-filled fields are guaranteed in
bounds. -/
theorem c7_amended_load_behaviour (r : ConfigRecord) :
    load_config FileContent.missing = DEFAULT_CONFIG
  ∧ load_config FileContent.unparseable = DEFAULT_CONFIG
  ∧ (r.price_cache_hours = none →
      (load_config (FileContent.parsed r)).price_cache_hours = 12
      ∧ price_hours_in_bounds (load_config (FileContent.parsed r)).price_cache_hours = true)
  ∧ (r.exchange_rate_cache_minutes = none →
      (load_config (FileContent.parsed r)).exchange_rate_cache_minutes = 10
      ∧ exchange_minutes_in_bounds
          (load_config (FileContent.parsed r)).exchange_rate_cache_minutes = true)
  ∧ (∀ h, r.price_cache_hours = some h →
      (load_config (FileContent.parsed r)).price_cache_hours = h)
  ∧ (∀ m, r.exchange_rate_cache_minutes = some m →
      (load_config (FileContent.parsed r)).exchange_rate_cache_minutes = m) := by
  refine ⟨rfl, rfl, ?_, ?_, ?_, ?_⟩
  · intro heq
    simp [load_config, heq, DEFAULT_CONFIG, price_hours_in_bounds]
  · intro heq
    simp [load_config, heq, DEFAULT_CONFIG, exchange_minutes_in_bounds]
  · intro h heq
    simp [load_config, heq]
  · intro m heq
    simp [load_config, heq]

theorem c7_amended_load_behaviour_witness :
    (load_config (FileContent.parsed
      { price_cache_hours := none, exchange_rate_cache_minutes := some 99 })).price_cache_hours = 12
  ∧ (load_config (FileContent.parsed
      { price_cache_hours := none, exchange_rate_cache_minutes := some 99 })).exchange_rate_cache_minutes = 99 :=
  ⟨((c7_amended_load_behaviour _).2.2.1 rfl).1,
   (c7_amended_load_behaviour _).2.2.2.2.2 99 rfl⟩

theorem scryfallNetwork_network (net : ScryNet) (cache : List (String × ScryEntry))
    (now : ℚ) (card : String) : (scryfallNetwork net cache now card).network = true := by
  cases net with
  | request_error => rfl
  | unexpected_error => rfl
  | response prices =>
    cases h : scryPriceStr prices with
    | none => simp [scryfallNetwork, h]
    | some s =>
      cases h2 : pyFloat s.data with
      | none => simp [scryfallNetwork, h, h2]
      | some q => simp [scryfallNetwork, h, h2]

/-- C6: staleness is judged against the TTL read fresh from the configuration
on every check: with one unchanged cache entry and no intervening write, a
call under a TTL the entry is younger than answers from cache with no network
request and leaves the state untouched, while a call under a lowered TTL the
entry's age reaches issues a network request. -/
theorem c6_ttl_read_fresh (cfg1 cfg2 : Config) (selAvail : Bool) (net1 net2 : LigaNet)
    (sel1 sel2 : SeleniumCall) (st : LigaState) (now1 now2 : ℚ) (card : String)
    (entry : LigaEntry)
    (he : lookupCache st.cache card = some entry)
    (hfresh : now1 - entry.timestamp < get_price_cache_ttl_seconds cfg1)
    (hstale : get_price_cache_ttl_seconds cfg2 ≤ now2 - entry.timestamp) :
    (fetch_price cfg1 selAvail net1 sel1 st now1 card).network = false
  ∧ (fetch_price cfg1 selAvail net1 sel1 st now1 card).state = st
  ∧ (fetch_price cfg1 selAvail net1 sel1 st now1 card).price = entry.price
  ∧ (fetch_price cfg2 selAvail net2 sel2 st now2 card).network = true := by
  refine ⟨?_, ?_, ?_, ?_⟩
  · rw [fetch_price_cache_hit cfg1 selAvail net1 sel1 st now1 card entry he hfresh]
  · rw [fetch_price_cache_hit cfg1 selAvail net1 sel1 st now1 card entry he hfresh]
  · rw [fetch_price_cache_hit cfg1 selAvail net1 sel1 st now1 card entry he hfresh]
  · rw [fetch_price_cache_stale cfg2 selAvail net2 sel2 st now2 card entry he hstale]
    exact ligaFetchNetwork_network selAvail net2 sel2 st now2 card

theorem c6_ttl_read_fresh_witness :
    (fetch_price DEFAULT_CONFIG true LigaNet.timeout SeleniumCall.raised
      { cache := [("Sol Ring",
          { price := some 2, timestamp := 0, meta := LigaMeta.editions_count 1 })],
        last_request_time := 0 } 7200 "Sol Ring").network = false
  ∧ (fetch_price { price_cache_hours := 1, exchange_rate_cache_minutes := 10 } true
      LigaNet.timeout SeleniumCall.raised
      { cache := [("Sol Ring",
          { price := some 2, timestamp := 0, meta := LigaMeta.editions_count 1 })],
        last_request_time := 0 } 7200 "Sol Ring").network = true := by
  have h := c6_ttl_read_fresh DEFAULT_CONFIG
    { price_cache_hours := 1, exchange_rate_cache_minutes := 10 } true
    LigaNet.timeout LigaNet.timeout SeleniumCall.raised SeleniumCall.raised
    { cache := [("Sol Ring",
        { price := some 2, timestamp := 0, meta := LigaMeta.editions_count 1 })],
      last_request_time := 0 } 7200 7200 "Sol Ring"
    { price := some 2, timestamp := 0, meta := LigaMeta.editions_count 1 }
    (by rfl)
    (by norm_num [get_price_cache_ttl_seconds, DEFAULT_CONFIG])
    (by norm_num [get_price_cache_ttl_seconds])
  exact ⟨h.1, h.2.2.2⟩

/-- C4 (counterexample): the Scryfall adapter does not store a negative cache
entry on a confirmed negative result: a response whose three USD price fields
are all absent is returned as None with the cache unchanged, and a second
fetch for the same key immediately afterwards issues another network request
instead of answering from cache. -/
theorem c4_counterexample :
    (get_card_price_from_scryfall DEFAULT_CONFIG
        (ScryNet.response { usd := none, usd_foil := none, usd_etched := none })
        [] 0 "Mox Pearl").price = none
  ∧ (get_card_price_from_scryfall DEFAULT_CONFIG
        (ScryNet.response { usd := none, usd_foil := none, usd_etched := none })
        [] 0 "Mox Pearl").cache = []
  ∧ (get_card_price_from_scryfall DEFAULT_CONFIG
        (ScryNet.response { usd := none, usd_foil := none, usd_etched := none })
        [] 0 "Mox Pearl").network = true
  ∧ (get_card_price_from_scryfall DEFAULT_CONFIG
        (ScryNet.response { usd := none, usd_foil := none, usd_etched := none })
        [] 60 "Mox Pearl").network = true :=
  ⟨rfl, rfl, rfl, rfl⟩

/-- C4 (amended): the local adapter stores a cache entry for every completed
page outcome, confirmed negatives included, so a second fetch for the same key
within the TTL answers from cache with no network request; a transient failure
(timeout) is cached by neither adapter and the next invocation issues a
network request; the Scryfall adapter stores no negative entries at all: its
confirmed negatives are returned absent uncached and the next fetch issues a
network request. -/
theorem c4_amended_negative_caching
    (cfg cfg2 : Config) (selAvail selAvail2 : Bool) (sel sel2 : SeleniumCall)
    (net2 : LigaNet) (st : LigaState) (now now2 : ℚ) (card : String) (p : LigaPage)
    (prices : ScryPrices) (scache : List (String × ScryEntry)) (snet2 : ScryNet) :
    (lookupCache st.cache card = none →
      ∃ m, lookupCache
          (fetch_price cfg selAvail (LigaNet.page p) sel st now card).state.cache card
        = some { price := (fetch_price cfg selAvail (LigaNet.page p) sel st now card).price,
                 timestamp := now, meta := m })
  ∧ (lookupCache st.cache card = none →
      now2 - now < get_price_cache_ttl_seconds cfg2 →
      fetch_price cfg2 selAvail2 net2 sel2
          (fetch_price cfg selAvail (LigaNet.page p) sel st now card).state now2 card
        = { price := (fetch_price cfg selAvail (LigaNet.page p) sel st now card).price,
            state := (fetch_price cfg selAvail (LigaNet.page p) sel st now card).state,
            network := false })
  ∧ (lookupCache st.cache card = none →
      (fetch_price cfg selAvail LigaNet.timeout sel st now card).state.cache = st.cache
      ∧ (fetch_price cfg selAvail LigaNet.timeout sel st now card).price = none
      ∧ (fetch_price cfg2 selAvail2 net2 sel2
          (fetch_price cfg selAvail LigaNet.timeout sel st now card).state now2 card).network
          = true)
  ∧ (lookupCache scache card = none → scryPriceStr prices = none →
      (get_card_price_from_scryfall cfg (ScryNet.response prices) scache now card).price = none
      ∧ (get_card_price_from_scryfall cfg (ScryNet.response prices) scache now card).cache
          = scache
      ∧ (get_card_price_from_scryfall cfg2 snet2
          (get_card_price_from_scryfall cfg (ScryNet.response prices) scache now card).cache
          now2 card).network = true) := by
  refine ⟨?_, ?_, ?_, ?_⟩
  · intro hmiss
    rw [fetch_price_cache_miss cfg selAvail (LigaNet.page p) sel st now card hmiss]
    exact ligaFetchNetwork_page_writes selAvail p sel st now card
  · intro hmiss hfresh
    rw [fetch_price_cache_miss cfg selAvail (LigaNet.page p) sel st now card hmiss]
    obtain ⟨m, hm⟩ := ligaFetchNetwork_page_writes selAvail p sel st now card
    exact fetch_price_cache_hit cfg2 selAvail2 net2 sel2 _ now2 card _ hm hfresh
  · intro hmiss
    rw [fetch_price_cache_miss cfg selAvail LigaNet.timeout sel st now card hmiss,
      ligaFetchNetwork_transient selAvail LigaNet.timeout sel st now card (Or.inl rfl)]
    refine ⟨rfl, rfl, ?_⟩
    show (fetch_price cfg2 selAvail2 net2 sel2
      { cache := st.cache, last_request_time := now } now2 card).network = true
    rw [fetch_price_cache_miss cfg2 selAvail2 net2 sel2
      { cache := st.cache, last_request_time := now } now2 card hmiss]
    exact ligaFetchNetwork_network selAvail2 net2 sel2 _ now2 card
  · intro hmiss hneg
    rw [scryfall_cache_miss cfg (ScryNet.response prices) scache now card hmiss,
      scryfallNetwork_no_price prices scache now card hneg]
    refine ⟨rfl, rfl, ?_⟩
    rw [scryfall_cache_miss cfg2 snet2 scache now2 card hmiss]
    exact scryfallNetwork_network snet2 scache now2 card

theorem c4_amended_negative_caching_witness :
    (get_card_price_from_scryfall DEFAULT_CONFIG
        (ScryNet.response { usd := none, usd_foil := none, usd_etched := none })
        [] 0 "Ancestral Recall").price = none
  ∧ (get_card_price_from_scryfall DEFAULT_CONFIG
        (ScryNet.response { usd := none, usd_foil := none, usd_etched := none })
        [] 0 "Ancestral Recall").cache = []
  ∧ (fetch_price DEFAULT_CONFIG true LigaNet.timeout SeleniumCall.raised
      { cache := [], last_request_time := 0 } 0 "Ancestral Recall").state.cache = [] := by
  have h := c4_amended_negative_caching DEFAULT_CONFIG DEFAULT_CONFIG true true
    SeleniumCall.raised SeleniumCall.raised LigaNet.timeout
    { cache := [], last_request_time := 0 } 0 1 "Ancestral Recall"
    { uses_javascript := false, has_magic_content := false, price_avg_texts := [] }
    { usd := none, usd_foil := none, usd_etched := none } [] ScryNet.request_error
  obtain ⟨hp, hc, _⟩ := h.2.2.2 rfl rfl
  exact ⟨hp, hc, (h.2.2.1 rfl).1⟩

/-- C5 (counterexample): two consecutive Scryfall fetches inside the TTL
window after a confirmed negative (here a response whose usd field is the
falsy empty string and whose other fields are absent) do not hit the cache on
the second call: nothing was cached, the second call returns the same absent
result but issues another network request. -/
theorem c5_counterexample :
    (get_card_price_from_scryfall DEFAULT_CONFIG
        (ScryNet.response { usd := some "", usd_foil := none, usd_etched := none })
        [] 0 "Timetwister").price = none
  ∧ (get_card_price_from_scryfall DEFAULT_CONFIG
        (ScryNet.response { usd := some "", usd_foil := none, usd_etched := none })
        [] 0 "Timetwister").cache = []
  ∧ (get_card_price_from_scryfall DEFAULT_CONFIG
        (ScryNet.response { usd := some "", usd_foil := none, usd_etched := none })
        [] 30 "Timetwister").network = true :=
  ⟨rfl, rfl, rfl⟩

/-- C5 (amended): reads are idempotent under the TTL whenever the first call
left a cache entry, which happens exactly on a completed page outcome of the
local adapter (any price or confirmed negative) and on a successfully
converted price of the Scryfall adapter: the second call within the TTL then
returns the same result and issues no network request. After a transient
failure of either adapter, or a Scryfall confirmed negative, nothing is cached
and the second call issues a network request. -/
theorem c5_amended_idempotent_reads (cfg cfg2 : Config) (selAvail selAvail2 : Bool)
    (sel sel2 : SeleniumCall) (net2 : LigaNet) (snet2 : ScryNet) (st : LigaState)
    (scache : List (String × ScryEntry)) (now now2 : ℚ) (card : String)
    (p : LigaPage) (prices : ScryPrices) (s : String) (q : ℚ) :
    (lookupCache st.cache card = none →
      now2 - now < get_price_cache_ttl_seconds cfg2 →
      fetch_price cfg2 selAvail2 net2 sel2
          (fetch_price cfg selAvail (LigaNet.page p) sel st now card).state now2 card
        = { price := (fetch_price cfg selAvail (LigaNet.page p) sel st now card).price,
            state := (fetch_price cfg selAvail (LigaNet.page p) sel st now card).state,
            network := false })
  ∧ (lookupCache scache card = none → scryPriceStr prices = some s →
      pyFloat s.data = some q →
      now2 - now < get_price_cache_ttl_seconds cfg2 →
      (get_card_price_from_scryfall cfg (ScryNet.response prices) scache now card).price
        = some q
      ∧ get_card_price_from_scryfall cfg2 snet2
          (get_card_price_from_scryfall cfg (ScryNet.response prices) scache now card).cache
          now2 card
        = { price := some q,
            cache :=
              (get_card_price_from_scryfall cfg (ScryNet.response prices) scache now card).cache,
            network := false })
  ∧ (lookupCache st.cache card = none →
      (fetch_price cfg2 selAvail2 net2 sel2
        (fetch_price cfg selAvail LigaNet.request_error sel st now card).state now2 card).network
        = true) := by
  refine ⟨?_, ?_, ?_⟩
  · intro hmiss hfresh
    rw [fetch_price_cache_miss cfg selAvail (LigaNet.page p) sel st now card hmiss]
    obtain ⟨m, hm⟩ := ligaFetchNetwork_page_writes selAvail p sel st now card
    exact fetch_price_cache_hit cfg2 selAvail2 net2 sel2 _ now2 card _ hm hfresh
  · intro hmiss hs hq hfresh
    rw [scryfall_cache_miss cfg (ScryNet.response prices) scache now card hmiss,
      scryfallNetwork_price prices scache now card s q hs hq]
    refine ⟨rfl, ?_⟩
    exact scryfall_cache_hit cfg2 snet2 _ now2 card { price := q, timestamp := now }
      (lookupCache_insertCache_self scache card { price := q, timestamp := now }) hfresh
  · intro hmiss
    rw [fetch_price_cache_miss cfg selAvail LigaNet.request_error sel st now card hmiss,
      ligaFetchNetwork_transient selAvail LigaNet.request_error sel st now card
        (Or.inr (Or.inl rfl))]
    show (fetch_price cfg2 selAvail2 net2 sel2
      { cache := st.cache, last_request_time := now } now2 card).network = true
    rw [fetch_price_cache_miss cfg2 selAvail2 net2 sel2
      { cache := st.cache, last_request_time := now } now2 card hmiss]
    exact ligaFetchNetwork_network selAvail2 net2 sel2 _ now2 card

theorem c5_amended_idempotent_reads_witness :
    (fetch_price DEFAULT_CONFIG true LigaNet.timeout SeleniumCall.raised
      (fetch_price DEFAULT_CONFIG true
        (LigaNet.page { uses_javascript := false, has_magic_content := true, price_avg_texts := ["R$ 2,00"] })
        SeleniumCall.raised { cache := [], last_request_time := 0 } 0 "Sol Ring").state
      60 "Sol Ring").network = false := by
  have h := (c5_amended_idempotent_reads DEFAULT_CONFIG DEFAULT_CONFIG true true
    SeleniumCall.raised SeleniumCall.raised LigaNet.timeout ScryNet.request_error
    { cache := [], last_request_time := 0 } [] 0 60 "Sol Ring"
    { uses_javascript := false, has_magic_content := true, price_avg_texts := ["R$ 2,00"] }
    { usd := none, usd_foil := none, usd_etched := none } "" 0).1 rfl
    (by norm_num [get_price_cache_ttl_seconds, DEFAULT_CONFIG])
  rw [h]

/-- C8 (counterexample): when the page needs script rendering and the
escalation path is unavailable, the local adapter does store a cache entry (a
negative one with reason javascript_no_selenium) rather than treating the
condition as transient, so a later call does not retry. -/
theorem c8_counterexample :
    (fetch_price DEFAULT_CONFIG false
      (LigaNet.page { uses_javascript := true, has_magic_content := true, price_avg_texts := [] })
      SeleniumCall.raised { cache := [], last_request_time := 0 } 0 "Craterhoof Behemoth").price
      = none
  ∧ lookupCache (fetch_price DEFAULT_CONFIG false
      (LigaNet.page { uses_javascript := true, has_magic_content := true, price_avg_texts := [] })
      SeleniumCall.raised { cache := [], last_request_time := 0 } 0
      "Craterhoof Behemoth").state.cache "Craterhoof Behemoth"
      = some { price := none, timestamp := 0, meta := LigaMeta.javascript_no_selenium } :=
  ⟨rfl, rfl⟩

/-- C8 (amended): for a page that requires rendering, an unavailable
escalation path is cached as a negative entry with reason
javascript_no_selenium; an escalation that executes and returns nothing
(including its internal timeouts and driver failures, which the scraper maps
to None) is cached as selenium_not_found; an escalation call that raises falls
through to the direct parse and caches that outcome (here: the negative
no_prices_found); only network-level transient failures of the page fetch
itself leave the cache untouched and permit a retry. -/
theorem c8_amended_escalation (cfg : Config) (selAvail : Bool) (sel : SeleniumCall)
    (run : SeleniumRun) (st : LigaState) (now : ℚ) (card : String) (p : LigaPage) :
    (p.uses_javascript = true → lookupCache st.cache card = none →
      (fetch_price cfg false (LigaNet.page p) sel st now card).price = none
      ∧ lookupCache (fetch_price cfg false (LigaNet.page p) sel st now card).state.cache card
        = some { price := none, timestamp := now, meta := LigaMeta.javascript_no_selenium })
  ∧ (p.uses_javascript = true → lookupCache st.cache card = none →
      selenium_fetch_price run = none →
      (fetch_price cfg true (LigaNet.page p) (SeleniumCall.executes run) st now card).price = none
      ∧ lookupCache (fetch_price cfg true (LigaNet.page p) (SeleniumCall.executes run)
          st now card).state.cache card
        = some { price := none, timestamp := now, meta := LigaMeta.selenium_not_found })
  ∧ (p.uses_javascript = true → lookupCache st.cache card = none →
      (p.price_avg_texts.filterMap parse_brl_price).filter (fun x => 0 < x) = [] →
      (fetch_price cfg true (LigaNet.page p) SeleniumCall.raised st now card).price = none
      ∧ lookupCache (fetch_price cfg true (LigaNet.page p) SeleniumCall.raised
          st now card).state.cache card
        = some { price := none, timestamp := now, meta := LigaMeta.no_prices_found })
  ∧ (lookupCache st.cache card = none →
      (fetch_price cfg selAvail LigaNet.timeout sel st now card).state.cache = st.cache) := by
  refine ⟨?_, ?_, ?_, ?_⟩
  · intro hjs hmiss
    rw [fetch_price_cache_miss cfg false (LigaNet.page p) sel st now card hmiss]
    have hred : ligaFetchNetwork false (LigaNet.page p) sel st now card
        = ligaWriteResult { st with last_request_time := now } card now none
            LigaMeta.javascript_no_selenium := by
      simp [ligaFetchNetwork, hjs]
    rw [hred]
    exact ⟨rfl, ligaWriteResult_lookup _ _ _ _ _⟩
  · intro hjs hmiss hsel
    rw [fetch_price_cache_miss cfg true (LigaNet.page p) (SeleniumCall.executes run)
      st now card hmiss]
    have hred : ligaFetchNetwork true (LigaNet.page p) (SeleniumCall.executes run) st now card
        = ligaWriteResult { st with last_request_time := now } card now none
            LigaMeta.selenium_not_found := by
      simp [ligaFetchNetwork, hjs, hsel]
    rw [hred]
    exact ⟨rfl, ligaWriteResult_lookup _ _ _ _ _⟩
  · intro hjs hmiss hvp
    rw [fetch_price_cache_miss cfg true (LigaNet.page p) SeleniumCall.raised st now card hmiss]
    have hred : ligaFetchNetwork true (LigaNet.page p) SeleniumCall.raised st now card
        = ligaWriteResult { st with last_request_time := now } card now none
            LigaMeta.no_prices_found := by
      simp [ligaFetchNetwork, ligaDirectParse, hjs, hvp]
    rw [hred]
    exact ⟨rfl, ligaWriteResult_lookup _ _ _ _ _⟩
  · intro hmiss
    rw [fetch_price_cache_miss cfg selAvail LigaNet.timeout sel st now card hmiss,
      ligaFetchNetwork_transient selAvail LigaNet.timeout sel st now card (Or.inl rfl)]

theorem c8_amended_escalation_witness :
    (fetch_price DEFAULT_CONFIG true
      (LigaNet.page { uses_javascript := true, has_magic_content := true, price_avg_texts := [] })
      (SeleniumCall.executes SeleniumRun.wait_timeout)
      { cache := [], last_request_time := 0 } 0 "Fierce Guardianship").price = none := by
  have h := (c8_amended_escalation DEFAULT_CONFIG true
    (SeleniumCall.executes SeleniumRun.wait_timeout) SeleniumRun.wait_timeout
    { cache := [], last_request_time := 0 } 0 "Fierce Guardianship"
    { uses_javascript := true, has_magic_content := true, price_avg_texts := [] }).2.1
    rfl rfl rfl
  exact h.1


theorem ligaDirectParse_nil (st1 : LigaState) (card : String) (now : ℚ)
    (texts : List String)
    (hf : (texts.filterMap parse_brl_price).filter (fun x => 0 < x) = []) :
    ligaDirectParse st1 card now texts
      = ligaWriteResult st1 card now none LigaMeta.no_prices_found := by
  unfold ligaDirectParse
  rw [hf]

theorem ligaDirectParse_cons (st1 : LigaState) (card : String) (now : ℚ)
    (texts : List String) (a : ℚ) (as : List ℚ)
    (hf : (texts.filterMap parse_brl_price).filter (fun x => 0 < x) = a :: as) :
    ligaDirectParse st1 card now texts
      = ligaWriteResult st1 card now (some (as.foldl min a))
          (LigaMeta.editions_count (a :: as).length) := by
  unfold ligaDirectParse
  rw [hf]

/-- All positive prices: every cache entry either is a negative entry or holds
a strictly positive price. The adapter only ever writes such entries. -/
def liga_cache_positive (c : List (String × LigaEntry)) : Bool :=
  c.all (fun e =>
    match e.2.price with
    | none => true
    | some q => decide (0 < q))

theorem liga_cache_positive_lookup {c : List (String × LigaEntry)} {card : String}
    {entry : LigaEntry} (hc : liga_cache_positive c = true)
    (he : lookupCache c card = some entry) :
    entry.price = none ∨ ∃ q, entry.price = some q ∧ 0 < q := by
  unfold lookupCache at he
  cases hf : c.find? (fun e => e.1 == card) with
  | none => rw [hf] at he; exact absurd he (by simp)
  | some pr =>
    rw [hf] at he
    have he2 : pr.2 = entry := Option.some.inj he
    subst he2
    have hmem := List.mem_of_find?_eq_some hf
    unfold liga_cache_positive at hc
    rw [List.all_eq_true] at hc
    have hpr := hc pr hmem
    cases hp : pr.2.price with
    | none => exact Or.inl rfl
    | some q =>
      rw [hp] at hpr
      exact Or.inr ⟨q, rfl, by simpa using hpr⟩

theorem liga_cache_positive_insert {c : List (String × LigaEntry)} (card : String)
    {entry : LigaEntry} (hc : liga_cache_positive c = true)
    (he : entry.price = none ∨ ∃ q, entry.price = some q ∧ 0 < q) :
    liga_cache_positive (insertCache c card entry) = true := by
  unfold liga_cache_positive insertCache
  rw [List.all_cons, Bool.and_eq_true]
  constructor
  · rcases he with hn | ⟨q, hq, hpos⟩
    · simp [hn]
    · simp [hq, hpos]
  · rw [List.all_eq_true]
    intro e hmem
    unfold liga_cache_positive at hc
    rw [List.all_eq_true] at hc
    exact hc e (List.mem_of_mem_filter hmem)

theorem selenium_fetch_price_pos (run : SeleniumRun) (q : ℚ)
    (h : selenium_fetch_price run = some q) : 0 < q := by
  cases run with
  | page_loaded texts =>
    simp only [selenium_fetch_price] at h
    rcases hf : (texts.filterMap parse_brl_price).filter (fun x => 0 < x) with _ | ⟨a, as⟩
    · rw [hf] at h; exact absurd h (by simp)
    · rw [hf] at h
      have hmem : as.foldl min a ∈ (texts.filterMap parse_brl_price).filter (fun x => 0 < x) := by
        rw [hf]; exact foldl_min_mem a as
      have hpos := pos_of_mem_pos_filter hmem
      obtain rfl : as.foldl min a = q := by injection h
      exact hpos
  | driver_unavailable => exact absurd h (by simp [selenium_fetch_price])
  | wait_timeout => exact absurd h (by simp [selenium_fetch_price])
  | webdriver_error => exact absurd h (by simp [selenium_fetch_price])
  | unexpected_error => exact absurd h (by simp [selenium_fetch_price])

theorem ligaWriteResult_positive (st1 : LigaState) (card : String) (now : ℚ)
    (price : Option ℚ) (meta : LigaMeta)
    (hc : liga_cache_positive st1.cache = true)
    (hp : price = none ∨ ∃ q, price = some q ∧ 0 < q) :
    (∀ q, (ligaWriteResult st1 card now price meta).price = some q → 0 < q)
    ∧ liga_cache_positive (ligaWriteResult st1 card now price meta).state.cache = true := by
  constructor
  · intro q hq
    rw [ligaWriteResult_price] at hq
    rcases hp with hn | ⟨r, hr, hpos⟩
    · rw [hn] at hq; exact absurd hq (by simp)
    · rw [hr] at hq
      obtain rfl : r = q := by injection hq
      exact hpos
  · exact liga_cache_positive_insert card hc hp

theorem ligaDirectParse_positive (st1 : LigaState) (card : String) (now : ℚ)
    (texts : List String) (hc : liga_cache_positive st1.cache = true) :
    (∀ q, (ligaDirectParse st1 card now texts).price = some q → 0 < q)
    ∧ liga_cache_positive (ligaDirectParse st1 card now texts).state.cache = true := by
  rcases hf : (texts.filterMap parse_brl_price).filter (fun x => 0 < x) with _ | ⟨a, as⟩
  · rw [ligaDirectParse_nil st1 card now texts hf]
    exact ligaWriteResult_positive st1 card now none _ hc (Or.inl rfl)
  · rw [ligaDirectParse_cons st1 card now texts a as hf]
    have hmem : as.foldl min a ∈ (texts.filterMap parse_brl_price).filter (fun x => 0 < x) := by
      rw [hf]; exact foldl_min_mem a as
    exact ligaWriteResult_positive st1 card now _ _ hc
      (Or.inr ⟨_, rfl, pos_of_mem_pos_filter hmem⟩)

theorem ligaFetchNetwork_positive (selAvail : Bool) (net : LigaNet) (sel : SeleniumCall)
    (st : LigaState) (now : ℚ) (card : String)
    (hc : liga_cache_positive st.cache = true) :
    (∀ q, (ligaFetchNetwork selAvail net sel st now card).price = some q → 0 < q)
    ∧ liga_cache_positive (ligaFetchNetwork selAvail net sel st now card).state.cache
      = true := by
  cases net with
  | timeout => exact ⟨fun q hq => absurd hq (by simp [ligaFetchNetwork]), hc⟩
  | request_error => exact ⟨fun q hq => absurd hq (by simp [ligaFetchNetwork]), hc⟩
  | unexpected_error => exact ⟨fun q hq => absurd hq (by simp [ligaFetchNetwork]), hc⟩
  | page p =>
    simp only [ligaFetchNetwork]
    split_ifs
    · exact ligaWriteResult_positive _ card now none _ hc (Or.inl rfl)
    · cases sel with
      | executes run =>
        cases hs : selenium_fetch_price run with
        | some price =>
          simp only [hs]
          exact ligaWriteResult_positive _ card now _ _ hc
            (Or.inr ⟨_, rfl, selenium_fetch_price_pos run price hs⟩)
        | none =>
          simp only [hs]
          exact ligaWriteResult_positive _ card now none _ hc (Or.inl rfl)
      | raised => exact ligaDirectParse_positive _ card now _ hc
    · exact ligaWriteResult_positive _ card now none _ hc (Or.inl rfl)
    · exact ligaDirectParse_positive _ card now _ hc

theorem fetch_price_positive (cfg : Config) (selAvail : Bool) (net : LigaNet)
    (sel : SeleniumCall) (st : LigaState) (now : ℚ) (card : String)
    (hc : liga_cache_positive st.cache = true) :
    (∀ q, (fetch_price cfg selAvail net sel st now card).price = some q → 0 < q)
    ∧ liga_cache_positive (fetch_price cfg selAvail net sel st now card).state.cache
      = true := by
  cases hl : lookupCache st.cache card with
  | none =>
    rw [fetch_price_cache_miss cfg selAvail net sel st now card hl]
    exact ligaFetchNetwork_positive selAvail net sel st now card hc
  | some entry =>
    by_cases hfr : now - entry.timestamp < get_price_cache_ttl_seconds cfg
    · rw [fetch_price_cache_hit cfg selAvail net sel st now card entry hl hfr]
      refine ⟨?_, hc⟩
      intro q hq
      rcases liga_cache_positive_lookup hc hl with hn | ⟨r, hr, hpos⟩
      · rw [hn] at hq; exact absurd hq (by simp)
      · rw [hr] at hq
        obtain rfl : r = q := by injection hq
        exact hpos
    · rw [fetch_price_cache_stale cfg selAvail net sel st now card entry hl (not_lt.mp hfr)]
      exact ligaFetchNetwork_positive selAvail net sel st now card hc

/-- C10: on a successful direct (non-cached, non-script) fetch, the price the
local adapter returns is the minimum of the per-edition prices that parsed
successfully and are strictly greater than zero (it belongs to that set and is
a lower bound of it), and absent when that set is empty; consequently, from
any cache whose entries respect the all-positive invariant, the adapter
returns either absence or a strictly positive price, and preserves the
invariant. -/
theorem c10_direct_min_positive (cfg : Config) (selAvail : Bool) (sel : SeleniumCall)
    (net : LigaNet) (st : LigaState) (now : ℚ) (card : String) (p : LigaPage) :
    (lookupCache st.cache card = none → p.uses_javascript = false →
      validate_card_result p = true →
      ((p.price_avg_texts.filterMap parse_brl_price).filter (fun x => 0 < x) = [] →
        (fetch_price cfg selAvail (LigaNet.page p) sel st now card).price = none)
      ∧ (∀ a as,
          (p.price_avg_texts.filterMap parse_brl_price).filter (fun x => 0 < x) = a :: as →
          (fetch_price cfg selAvail (LigaNet.page p) sel st now card).price
            = some (as.foldl min a)
          ∧ as.foldl min a
              ∈ (p.price_avg_texts.filterMap parse_brl_price).filter (fun x => 0 < x)
          ∧ (∀ y ∈ (p.price_avg_texts.filterMap parse_brl_price).filter (fun x => 0 < x),
              as.foldl min a ≤ y)
          ∧ 0 < as.foldl min a))
  ∧ (liga_cache_positive st.cache = true →
      (∀ q, (fetch_price cfg selAvail net sel st now card).price = some q → 0 < q)
      ∧ liga_cache_positive (fetch_price cfg selAvail net sel st now card).state.cache
        = true) := by
  constructor
  · intro hmiss hjs hvalid
    rw [fetch_price_cache_miss cfg selAvail (LigaNet.page p) sel st now card hmiss]
    have hred : ligaFetchNetwork selAvail (LigaNet.page p) sel st now card
        = ligaDirectParse { st with last_request_time := now } card now p.price_avg_texts := by
      simp [ligaFetchNetwork, hjs, hvalid]
    constructor
    · intro hf
      rw [hred, ligaDirectParse_nil _ _ _ _ hf, ligaWriteResult_price]
    · intro a as hf
      have hmem : as.foldl min a
          ∈ (p.price_avg_texts.filterMap parse_brl_price).filter (fun x => 0 < x) := by
        rw [hf]; exact foldl_min_mem a as
      rw [hred, ligaDirectParse_cons _ _ _ _ a as hf, ligaWriteResult_price]
      refine ⟨rfl, hmem, ?_, pos_of_mem_pos_filter hmem⟩
      intro y hy
      rw [hf] at hy
      exact foldl_min_le_all a as y hy
  · intro hc
    exact fetch_price_positive cfg selAvail net sel st now card hc

theorem c10_direct_min_positive_witness :
    (fetch_price DEFAULT_CONFIG true
      (LigaNet.page { uses_javascript := false, has_magic_content := true, price_avg_texts := ["R$ 1,00"] })
      SeleniumCall.raised { cache := [], last_request_time := 0 } 0 "Sol Ring").price
      = some 1 := by
  have hv : ((["R$ 1,00"] : List String).filterMap parse_brl_price).filter
      (fun x => 0 < x) = [1] := by
    simp +decide [parse_brl_price, pyReplace, pyReplaceAux, pyStrip, pyFloat, digitsToNat,
      List.filterMap]
  have h := ((c10_direct_min_positive DEFAULT_CONFIG true SeleniumCall.raised
    LigaNet.timeout { cache := [], last_request_time := 0 } 0 "Sol Ring"
    { uses_javascript := false, has_magic_content := true, price_avg_texts := ["R$ 1,00"] }).1
    rfl rfl rfl).2 1 [] hv
  simpa using h.1

/-! ## Resolver lemmas -/

theorem resolver_local_hit (cfg : Config) (selAvail : Bool) (ligaNet : LigaNet)
    (sel : SeleniumCall) (scryNet : ScryNet) (rateNet : RateNet) (ligaSt : LigaState)
    (mtgSt : MtgState) (now : ℚ) (card : String) (pr : ℚ)
    (h : (fetch_price cfg selAvail ligaNet sel ligaSt now card).price = some pr) :
    (get_card_price_brl cfg true selAvail ligaNet sel scryNet rateNet ligaSt mtgSt
        now card true).1
      = some { price := pr, source := "ligamagic", currency := "BRL" } := by
  simp [get_card_price_brl, get_card_price_brl_from_ligamagic, h]

theorem resolver_fallback_none (cfg : Config) (selAvail : Bool) (ligaNet : LigaNet)
    (sel : SeleniumCall) (scryNet : ScryNet) (rateNet : RateNet) (ligaSt : LigaState)
    (mtgSt : MtgState) (now : ℚ) (card : String)
    (hl : (fetch_price cfg selAvail ligaNet sel ligaSt now card).price = none)
    (hs : (get_card_price_from_scryfall cfg scryNet mtgSt.scry_cache now card).price = none) :
    (get_card_price_brl cfg true selAvail ligaNet sel scryNet rateNet ligaSt mtgSt
        now card true).1 = none := by
  simp [get_card_price_brl, get_card_price_brl_from_ligamagic, hl, hs]

theorem resolver_fallback_usd (cfg : Config) (selAvail : Bool) (ligaNet : LigaNet)
    (sel : SeleniumCall) (scryNet : ScryNet) (rateNet : RateNet) (ligaSt : LigaState)
    (mtgSt : MtgState) (now : ℚ) (card : String) (pu : ℚ)
    (hl : (fetch_price cfg selAvail ligaNet sel ligaSt now card).price = none)
    (hs : (get_card_price_from_scryfall cfg scryNet mtgSt.scry_cache now card).price = some pu)
    (hr : (get_usd_to_brl_exchange_rate cfg rateNet mtgSt.exchange_rate_cache now).rate
      = none) :
    (get_card_price_brl cfg true selAvail ligaNet sel scryNet rateNet ligaSt mtgSt
        now card true).1
      = some { price := pu, source := "scryfall", currency := "USD" } := by
  simp [get_card_price_brl, get_card_price_brl_from_ligamagic, hl, hs, hr]

theorem resolver_fallback_converted (cfg : Config) (selAvail : Bool) (ligaNet : LigaNet)
    (sel : SeleniumCall) (scryNet : ScryNet) (rateNet : RateNet) (ligaSt : LigaState)
    (mtgSt : MtgState) (now : ℚ) (card : String) (pu r : ℚ)
    (hl : (fetch_price cfg selAvail ligaNet sel ligaSt now card).price = none)
    (hs : (get_card_price_from_scryfall cfg scryNet mtgSt.scry_cache now card).price = some pu)
    (hr : (get_usd_to_brl_exchange_rate cfg rateNet mtgSt.exchange_rate_cache now).rate
      = some r) :
    (get_card_price_brl cfg true selAvail ligaNet sel scryNet rateNet ligaSt mtgSt
        now card true).1
      = some { price := pu * r, source := "scryfall", currency := "BRL" } := by
  simp [get_card_price_brl, get_card_price_brl_from_ligamagic, hl, hs, hr]

/-- C1: with prefer_local set and the LigaMagic module importable, the resolver
consults the local adapter first and on a price returns it tagged source
ligamagic, currency BRL; on local absence it falls through to the Scryfall
adapter; a Scryfall price with no exchange rate available is returned tagged
with the adapter's native currency USD, not the target currency; a Scryfall
price with a rate is converted and tagged BRL; absence of both adapters is an
overall absence; and every non-absent result carries a source and a currency
drawn from the fixed vocabularies. -/
theorem c1_resolver_fallback_order (cfg : Config) (selAvail : Bool) (ligaNet : LigaNet)
    (sel : SeleniumCall) (scryNet : ScryNet) (rateNet : RateNet) (ligaSt : LigaState)
    (mtgSt : MtgState) (now : ℚ) (card : String) :
    (∀ pr, (fetch_price cfg selAvail ligaNet sel ligaSt now card).price = some pr →
      (get_card_price_brl cfg true selAvail ligaNet sel scryNet rateNet ligaSt mtgSt
          now card true).1
        = some { price := pr, source := "ligamagic", currency := "BRL" })
  ∧ ((fetch_price cfg selAvail ligaNet sel ligaSt now card).price = none →
      (get_card_price_from_scryfall cfg scryNet mtgSt.scry_cache now card).price = none →
      (get_card_price_brl cfg true selAvail ligaNet sel scryNet rateNet ligaSt mtgSt
          now card true).1 = none)
  ∧ (∀ pu, (fetch_price cfg selAvail ligaNet sel ligaSt now card).price = none →
      (get_card_price_from_scryfall cfg scryNet mtgSt.scry_cache now card).price = some pu →
      (get_usd_to_brl_exchange_rate cfg rateNet mtgSt.exchange_rate_cache now).rate = none →
      (get_card_price_brl cfg true selAvail ligaNet sel scryNet rateNet ligaSt mtgSt
          now card true).1
        = some { price := pu, source := "scryfall", currency := "USD" })
  ∧ (∀ pu r, (fetch_price cfg selAvail ligaNet sel ligaSt now card).price = none →
      (get_card_price_from_scryfall cfg scryNet mtgSt.scry_cache now card).price = some pu →
      (get_usd_to_brl_exchange_rate cfg rateNet mtgSt.exchange_rate_cache now).rate = some r →
      (get_card_price_brl cfg true selAvail ligaNet sel scryNet rateNet ligaSt mtgSt
          now card true).1
        = some { price := pu * r, source := "scryfall", currency := "BRL" })
  ∧ (∀ q, (get_card_price_brl cfg true selAvail ligaNet sel scryNet rateNet ligaSt mtgSt
          now card true).1 = some q →
      (q.source = "ligamagic" ∨ q.source = "scryfall")
      ∧ (q.currency = "BRL" ∨ q.currency = "USD")) := by
  refine ⟨?_, ?_, ?_, ?_, ?_⟩
  · intro pr h
    exact resolver_local_hit cfg selAvail ligaNet sel scryNet rateNet ligaSt mtgSt
      now card pr h
  · intro hl hs
    exact resolver_fallback_none cfg selAvail ligaNet sel scryNet rateNet ligaSt mtgSt
      now card hl hs
  · intro pu hl hs hr
    exact resolver_fallback_usd cfg selAvail ligaNet sel scryNet rateNet ligaSt mtgSt
      now card pu hl hs hr
  · intro pu r hl hs hr
    exact resolver_fallback_converted cfg selAvail ligaNet sel scryNet rateNet ligaSt mtgSt
      now card pu r hl hs hr
  · intro q hq
    rcases hl : (fetch_price cfg selAvail ligaNet sel ligaSt now card).price with _ | pr
    · rcases hs : (get_card_price_from_scryfall cfg scryNet mtgSt.scry_cache now card).price
        with _ | pu
      · rw [resolver_fallback_none cfg selAvail ligaNet sel scryNet rateNet ligaSt mtgSt
          now card hl hs] at hq
        exact absurd hq (by simp)
      · rcases hr : (get_usd_to_brl_exchange_rate cfg rateNet mtgSt.exchange_rate_cache
            now).rate with _ | r
        · rw [resolver_fallback_usd cfg selAvail ligaNet sel scryNet rateNet ligaSt mtgSt
            now card pu hl hs hr] at hq
          obtain rfl := Option.some.inj hq
          exact ⟨Or.inr rfl, Or.inr rfl⟩
        · rw [resolver_fallback_converted cfg selAvail ligaNet sel scryNet rateNet ligaSt
            mtgSt now card pu r hl hs hr] at hq
          obtain rfl := Option.some.inj hq
          exact ⟨Or.inr rfl, Or.inl rfl⟩
    · rw [resolver_local_hit cfg selAvail ligaNet sel scryNet rateNet ligaSt mtgSt
        now card pr hl] at hq
      obtain rfl := Option.some.inj hq
      exact ⟨Or.inl rfl, Or.inl rfl⟩

theorem c1_resolver_fallback_order_witness :
    (get_card_price_brl DEFAULT_CONFIG true true LigaNet.timeout SeleniumCall.raised
      ScryNet.request_error RateNet.request_error
      { cache := [("Sol Ring",
          { price := some 2, timestamp := 0, meta := LigaMeta.editions_count 1 })],
        last_request_time := 0 }
      { scry_cache := [], exchange_rate_cache := { rate := none, timestamp := 0 } }
      0 "Sol Ring" true).1
      = some { price := 2, source := "ligamagic", currency := "BRL" }
  ∧ (get_card_price_brl DEFAULT_CONFIG true true LigaNet.timeout SeleniumCall.raised
      ScryNet.request_error RateNet.request_error
      { cache := [], last_request_time := 0 }
      { scry_cache := [("Sol Ring", { price := 3, timestamp := 0 })],
        exchange_rate_cache := { rate := none, timestamp := 0 } }
      0 "Sol Ring" true).1
      = some { price := 3, source := "scryfall", currency := "USD" } := by
  constructor
  · refine (c1_resolver_fallback_order DEFAULT_CONFIG true LigaNet.timeout
      SeleniumCall.raised ScryNet.request_error RateNet.request_error _ _ 0 "Sol Ring").1
      2 ?_
    rw [fetch_price_cache_hit DEFAULT_CONFIG true LigaNet.timeout SeleniumCall.raised
      { cache := [("Sol Ring",
          { price := some 2, timestamp := 0, meta := LigaMeta.editions_count 1 })],
        last_request_time := 0 }
      0 "Sol Ring" { price := some 2, timestamp := 0, meta := LigaMeta.editions_count 1 }
      rfl (by norm_num [get_price_cache_ttl_seconds, DEFAULT_CONFIG])]
  · refine (c1_resolver_fallback_order DEFAULT_CONFIG true LigaNet.timeout
      SeleniumCall.raised ScryNet.request_error RateNet.request_error _ _ 0
      "Sol Ring").2.2.1 3 rfl ?_ rfl
    rw [scryfall_cache_hit DEFAULT_CONFIG ScryNet.request_error
      [("Sol Ring", { price := 3, timestamp := 0 })] 0 "Sol Ring"
      { price := 3, timestamp := 0 } rfl
      (by norm_num [get_price_cache_ttl_seconds, DEFAULT_CONFIG])]
